import Mathlib

/-!
Verification of the time-slot availability and conflict-detection core of the
`bbt` booking front end.  The definitions below are a shallow embedding of the
TypeScript source: time strings are `String`, JavaScript's
`parseInt(s.replace(':', ''))` is modelled by `timeNum` (with `none` standing
for `NaN`, and comparisons against `NaN` yielding `false` as in JavaScript),
the zod schema of `src/pages/admin/Timeslots.tsx` by `timePattern` /
`validateTimeSlot`, the conflict checker by `checkConflicts`, the save handler
by `handleSave`, the booking page's availability test and selection handlers by
`hasAvailable` / `handleDateSelect` / `handleSlotSelect`, and the network layer
of `src/lib/api.ts` by `fetchBody` / `fetchAPI` over an explicit outcome of the
underlying `fetch` call.
-/

namespace BBT

/-! ## Characters and JavaScript-style integer parsing -/

/-- The regex character class `[0-9]`. -/
def isDigitChar (c : Char) : Bool :=
  c == '0' || c == '1' || c == '2' || c == '3' || c == '4' ||
  c == '5' || c == '6' || c == '7' || c == '8' || c == '9'

/-- The longest run of decimal digits at the head of the list: the part of the
string JavaScript's `parseInt` consumes. -/
def leadingDigits : List Char → List Char
  | [] => []
  | c :: cs => if isDigitChar c then c :: leadingDigits cs else []

/-- The number denoted by a list of decimal digits (most significant first). -/
def digitsToNat (ds : List Char) : Nat :=
  ds.foldl (fun a c => a * 10 + (c.toNat - 48)) 0

/-- JavaScript `parseInt` on the inputs this code builds: the leading digit run
is read as a decimal number; with no leading digit the result is `NaN`,
modelled as `none`. -/
def parseIntJS (cs : List Char) : Option Nat :=
  if leadingDigits cs = [] then none else some (digitsToNat (leadingDigits cs))

/-- JavaScript `s.replace(':', '')` with a string pattern: only the first
occurrence of `':'` is removed. -/
def replaceFirstColon : List Char → List Char
  | [] => []
  | c :: cs => if c == ':' then cs else c :: replaceFirstColon cs

/-- `parseInt(s.replace(':', ''))`, the time encoding used throughout
`Timeslots.tsx` (e.g. `"09:00" ↦ 900`). -/
def timeNum (s : String) : Option Nat :=
  parseIntJS (replaceFirstColon s.data)

/-- The encoded time value, defaulting to `0`; used only in statements about
strings whose encoding is known to exist. -/
def timeValD (s : String) : Nat :=
  (timeNum s).getD 0

/-! ## The `HH:MM` regex of the zod schema -/

/-- Split a character list at its first `':'`: `none` when there is no colon,
otherwise the (colon-free) part before it and the part after it. -/
def splitAtFirstColon : List Char → Option (List Char × List Char)
  | [] => none
  | c :: cs =>
    if c == ':' then some ([], cs)
    else
      match splitAtFirstColon cs with
      | some (a, b) => some (c :: a, b)
      | none => none

/-- The hour alternative `([0-1]?[0-9]|2[0-3])` of the schema's regex. -/
def hourOK : List Char → Bool
  | [d] => isDigitChar d
  | [a, b] =>
    ((a == '0' || a == '1') && isDigitChar b) ||
    (a == '2' && (b == '0' || b == '1' || b == '2' || b == '3'))
  | _ => false

/-- The minute part `[0-5][0-9]` of the schema's regex. -/
def minuteOK : List Char → Bool
  | [a, b] =>
    (a == '0' || a == '1' || a == '2' || a == '3' || a == '4' || a == '5') &&
    isDigitChar b
  | _ => false

/-- Whether `s` matches `^([0-1]?[0-9]|2[0-3]):[0-5][0-9]$`. -/
def timePattern (s : String) : Bool :=
  match splitAtFirstColon s.data with
  | some (a, b) => hourOK a && minuteOK b
  | none => false

/-! ## Validation (`timeSlotSchema` of `Timeslots.tsx`) -/

/-- The two ways `timeSlotSchema` rejects a form: a regex issue on a field, or
the `refine` step (`end > start`) failing. -/
inductive ValidationError
  | invalidFormat
  | invalidRange
deriving DecidableEq

/-- JavaScript `>` on two `parseInt` results; any `NaN` operand gives
`false`. -/
def ogt : Option Nat → Option Nat → Bool
  | some a, some b => decide (b < a)
  | _, _ => false

/-- JavaScript `>=` with `NaN` giving `false`. -/
def oge : Option Nat → Option Nat → Bool
  | some a, some b => decide (b ≤ a)
  | _, _ => false

/-- JavaScript `<` with `NaN` giving `false`. -/
def olt : Option Nat → Option Nat → Bool
  | some a, some b => decide (a < b)
  | _, _ => false

/-- JavaScript `<=` with `NaN` giving `false`. -/
def ole : Option Nat → Option Nat → Bool
  | some a, some b => decide (a ≤ b)
  | _, _ => false

/-- `timeSlotSchema.parse` on the two time fields: both fields must match the
`HH:MM` regex (else the zod issues are format errors), and only then does the
`refine` step compare the encoded values (`end > start`, else a range
error). -/
def validateTimeSlot (start «end» : String) : Except ValidationError Unit :=
  if timePattern start && timePattern «end» then
    if ogt (timeNum «end») (timeNum start) then Except.ok ()
    else Except.error ValidationError.invalidRange
  else Except.error ValidationError.invalidFormat

/-! ## The admin slot model and the conflict checker -/

/-- A time slot as managed by the admin page. -/
structure TimeSlot where
  id : String
  start : String
  «end» : String
  enabled : Bool
deriving DecidableEq

/-- A dated group of special slots. -/
structure SpecialSlot where
  id : String
  date : String
  slots : List TimeSlot
deriving DecidableEq

/-- The body of the `some` callback in `checkConflicts`, after the id guard:
the three-disjunct overlap test of the source, on `parseInt` results. -/
def overlapTest (newStart newEnd slotStart slotEnd : Option Nat) : Bool :=
  (oge newStart slotStart && olt newStart slotEnd) ||
  (ogt newEnd slotStart && ole newEnd slotEnd) ||
  (ole newStart slotStart && oge newEnd slotEnd)

/-- `checkConflicts` of `Timeslots.tsx`, with the pool (`slotsToCheck` in the
source, chosen there by the active tab) passed explicitly: some pool slot with
a different id passes the overlap test. -/
def checkConflicts (newSlot : TimeSlot) (slotsToCheck : List TimeSlot) : Bool :=
  slotsToCheck.any fun slot =>
    if slot.id == newSlot.id then false
    else
      overlapTest (timeNum newSlot.start) (timeNum newSlot.«end»)
        (timeNum slot.start) (timeNum slot.«end»)

/-- A slot whose two time fields match the schema's regex and whose encoded
interval is non-empty (`end > start`). -/
def validSlot (t : TimeSlot) : Prop :=
  timePattern t.start = true ∧ timePattern t.«end» = true ∧
    timeValD t.start < timeValD t.«end»

instance (t : TimeSlot) : Decidable (validSlot t) := by
  unfold validSlot; infer_instance

/-! ## The save handler (`handleSave` of `Timeslots.tsx`) -/

/-- The two tabs of the admin page. -/
inductive Tab
  | regular
  | special
deriving DecidableEq

/-- The edit form's data (`Omit<TimeSlot, 'id'>`). -/
structure FormData where
  start : String
  «end» : String
  enabled : Bool
deriving DecidableEq

/-- JavaScript `Array.prototype.map` when the callback uses the element's
index, starting the count at `n`. -/
def mapWithIndex {α : Type} (f : Nat → α → α) : Nat → List α → List α
  | _, [] => []
  | n, a :: l => f n a :: mapWithIndex f (n + 1) l

/-- `{...slot, ...formData}`: the form fields overwrite everything but the
id. -/
def applyForm (fd : FormData) (slot : TimeSlot) : TimeSlot :=
  ⟨slot.id, fd.start, fd.«end», fd.enabled⟩

/-- `handleSave` of `Timeslots.tsx` as a state transition on the two slot
lists.  `none` models the early return when `validateForm()` fails.  `newId`
stands for the `Date.now().toString()` id of a newly added slot, `gid` for the
id of a freshly created special group, `today` for
`new Date().toISOString().split('T')[0]`.  Editing happens only when
`isEditing` holds and a slot is selected (`isEditing && selectedSlot`);
otherwise the new slot is appended — on the special tab to the group at index
0 when one exists, else into a new group dated `today`. -/
def handleSave (activeTab : Tab) (isEditing : Bool) (selectedSlot : Option TimeSlot)
    (fd : FormData) (newId gid today : String)
    (regularSlots : List TimeSlot) (specialSlots : List SpecialSlot) :
    Option (List TimeSlot × List SpecialSlot) :=
  match validateTimeSlot fd.start fd.«end» with
  | Except.error _ => none
  | Except.ok _ =>
    match isEditing, selectedSlot with
    | true, some sel =>
      match activeTab with
      | Tab.regular =>
        some (regularSlots.map
          (fun slot => if slot.id == sel.id then applyForm fd slot else slot),
          specialSlots)
      | Tab.special =>
        some (regularSlots,
          specialSlots.map (fun sp =>
            ⟨sp.id, sp.date,
              sp.slots.map
                (fun slot => if slot.id == sel.id then applyForm fd slot else slot)⟩))
    | _, _ =>
      let newSlot : TimeSlot := ⟨newId, fd.start, fd.«end», fd.enabled⟩
      match activeTab with
      | Tab.regular => some (regularSlots ++ [newSlot], specialSlots)
      | Tab.special =>
        if specialSlots.length > 0 then
          some (regularSlots,
            mapWithIndex
              (fun i sp => if i == 0 then ⟨sp.id, sp.date, sp.slots ++ [newSlot]⟩ else sp)
              0 specialSlots)
        else
          some (regularSlots, [⟨gid, today, [newSlot]⟩])

/-- The pool `checkConflicts` closes over in the source: the regular list, or
the flattened special groups, as the active tab selects. -/
def slotsToCheckFor (activeTab : Tab) (regularSlots : List TimeSlot)
    (specialSlots : List SpecialSlot) : List TimeSlot :=
  match activeTab with
  | Tab.regular => regularSlots
  | Tab.special => specialSlots.flatMap SpecialSlot.slots

/-- The candidate the edit panel passes to `checkConflicts`:
`{ ...formData, id: selectedSlot?.id || '' }`. -/
def formCandidate (fd : FormData) (selectedSlot : Option TimeSlot) : TimeSlot :=
  ⟨(selectedSlot.map TimeSlot.id).getD "", fd.start, fd.«end», fd.enabled⟩

/-! ## The booking page (`Booking.tsx`) -/

/-- A bookable slot as the booking page receives it. -/
structure BookingSlot where
  start : String
  «end» : String
  available : Bool
deriving DecidableEq

/-- One calendar day with its slots. -/
structure DaySlots where
  date : String
  slots : List BookingSlot
deriving DecidableEq

/-- `daySlot.slots.some(s => s.available)`: whether a calendar day is
selectable. -/
def hasAvailable (day : DaySlots) : Bool :=
  day.slots.any fun s => s.available

/-- The booking page's selection state (`selectedDate`, `selectedSlot`). -/
structure Selection where
  selectedDate : Option String
  selectedSlot : Option String
deriving DecidableEq

/-- `handleDateSelect`: sets the date and resets the slot to `null`, from any
state. -/
def handleDateSelect (date : String) (_st : Selection) : Selection :=
  ⟨some date, none⟩

/-- `handleSlotSelect`: sets only the slot. -/
def handleSlotSelect (slot : String) (st : Selection) : Selection :=
  ⟨st.selectedDate, some slot⟩

/-! ## The network layer (`src/lib/api.ts`) -/

/-- A parsed JSON body, kept abstract. -/
structure JsonData where
  raw : String
deriving DecidableEq

/-- Whether `p` is a prefix of `l` (character lists). -/
def isPrefixOfCharList : List Char → List Char → Bool
  | [], _ => true
  | _ :: _, [] => false
  | a :: as, b :: bs => a == b && isPrefixOfCharList as bs

/-- JavaScript `String.prototype.includes`. -/
def containsSub (sub : List Char) : List Char → Bool
  | [] => isPrefixOfCharList sub []
  | c :: t => isPrefixOfCharList sub (c :: t) || containsSub sub t

/-- JavaScript `s.includes(sub)`. -/
def strIncludes (s sub : String) : Bool :=
  containsSub sub.data s.data

/-- JavaScript `s.startsWith(p)`. -/
def strStartsWith (s p : String) : Bool :=
  isPrefixOfCharList p.data s.data

/-- `!contentType || !contentType.includes('application/json')`, negated: the
header is present and mentions JSON. -/
def ctIncludesJson : Option String → Bool
  | none => false
  | some ct => strIncludes ct "application/json"

/-- What the awaited `fetch` call delivered to the `try` block. -/
structure Response where
  contentType : Option String
  ok : Bool
  status : Nat
  statusText : String
  text : String
  json : Option JsonData
deriving DecidableEq

/-- How the `fetch` promise itself settled: a timeout (`AbortError` from the
8-second `AbortSignal.timeout`), a network failure (`TypeError: Failed to
fetch`), or a response. -/
inductive FetchOutcome
  | timeout
  | networkError
  | resp (r : Response)
deriving DecidableEq

/-- The failures the `try` block of `fetchAPI` can end in. -/
inductive FetchErr
  | timeout
  | networkError
  | htmlPage
  | invalidContentType (ct : Option String)
  | requestFailed (status : Nat) (statusText : String)
  | jsonDecode
deriving DecidableEq

/-- The `try` block of `fetchAPI`: reject a non-JSON content type (an HTML body
distinguished), turn a non-ok status into a request failure (the inner
`try/catch` there always ends in the status-based message), and otherwise
deliver the parsed body. -/
def fetchBody (o : FetchOutcome) : Except FetchErr JsonData :=
  match o with
  | FetchOutcome.timeout => Except.error FetchErr.timeout
  | FetchOutcome.networkError => Except.error FetchErr.networkError
  | FetchOutcome.resp r =>
    if !ctIncludesJson r.contentType then
      if strStartsWith r.text "<!DOCTYPE html>" then Except.error FetchErr.htmlPage
      else Except.error (FetchErr.invalidContentType r.contentType)
    else if !r.ok then
      Except.error (FetchErr.requestFailed r.status r.statusText)
    else
      match r.json with
      | some d => Except.ok d
      | none => Except.error FetchErr.jsonDecode

/-- The user-visible message `toast.error` receives in the `catch` block. -/
def errorMessage : FetchErr → String
  | FetchErr.networkError => "无法连接到API服务器，请检查网络连接或服务器状态"
  | FetchErr.timeout => "请求超时，请稍后再试"
  | FetchErr.htmlPage => "API请求错误: 服务器返回了HTML页面而不是JSON数据"
  | FetchErr.invalidContentType ct => "API请求错误: 无效的响应类型: " ++ ct.getD "null"
  | FetchErr.requestFailed status statusText =>
    "API请求错误: 请求失败: " ++ toString status ++ " " ++ statusText
  | FetchErr.jsonDecode => "API请求错误: JSON解析失败"

/-- The hard-coded fallback dataset of `fetchAPI` (`today` stands for
`new Date().toISOString().split('T')[0]`). -/
def defaultTimeslots (today : String) : List DaySlots :=
  [⟨today, [⟨"09:00", "12:00", true⟩, ⟨"14:00", "18:00", true⟩]⟩]

/-- What `fetchAPI` resolves with: the parsed body, or the mock fallback. -/
inductive FetchVal
  | data (d : JsonData)
  | mock (d : List DaySlots)
deriving DecidableEq

/-- `fetchAPI` of `api.ts`: the `try` block's failure is toasted and then
either masked by the fallback (endpoint `'/timeslots'`) or re-thrown.  The
second component collects the `toast.error` calls. -/
def fetchAPI (endpoint : String) (o : FetchOutcome) (today : String) :
    Except FetchErr FetchVal × List String :=
  match fetchBody o with
  | Except.ok d => (Except.ok (FetchVal.data d), [])
  | Except.error e =>
    if endpoint == "/timeslots" then
      (Except.ok (FetchVal.mock (defaultTimeslots today)), [errorMessage e])
    else
      (Except.error e, [errorMessage e])

/-- `'/api'`, the base every endpoint is appended to. -/
def API_BASE_URL : String := "/api"

/-- The request `fetchAPI` hands to `fetch`: url, credentials mode, and the
`AbortSignal.timeout` budget in milliseconds. -/
structure OutboundRequest where
  url : String
  credentials : String
  timeoutMs : Nat
deriving DecidableEq

/-- The request built for an endpoint: `credentials: 'include'` and
`AbortSignal.timeout(8000)`. -/
def buildRequest (endpoint : String) : OutboundRequest :=
  ⟨API_BASE_URL ++ endpoint, "include", 8000⟩

/-! ## Parsing lemmas -/

theorem splitAtFirstColon_sound :
    ∀ (cs a b : List Char), splitAtFirstColon cs = some (a, b) →
      cs = a ++ ':' :: b ∧ ':' ∉ a := by
  intro cs
  induction cs with
  | nil => intro a b h; simp [splitAtFirstColon] at h
  | cons c t ih =>
    intro a b h
    rw [splitAtFirstColon] at h
    by_cases hc : (c == ':') = true
    · rw [if_pos hc] at h
      simp only [Option.some.injEq, Prod.mk.injEq] at h
      obtain ⟨ha, hb⟩ := h
      subst ha; subst hb
      exact ⟨by simp [(beq_iff_eq.mp hc)], by simp⟩
    · rw [if_neg hc] at h
      cases hsplit : splitAtFirstColon t with
      | none => rw [hsplit] at h; cases h
      | some p =>
        obtain ⟨a', b'⟩ := p
        rw [hsplit] at h
        simp only [Option.some.injEq, Prod.mk.injEq] at h
        obtain ⟨ha, hb⟩ := h
        subst ha; subst hb
        obtain ⟨ht, hnc⟩ := ih a' b' hsplit
        refine ⟨by rw [ht]; rfl, ?_⟩
        intro hmem
        rcases List.mem_cons.mp hmem with he | he
        · exact hc (beq_iff_eq.mpr he.symm)
        · exact hnc he

theorem replaceFirstColon_split (a b : List Char) (h : ':' ∉ a) :
    replaceFirstColon (a ++ ':' :: b) = a ++ b := by
  induction a with
  | nil => simp [replaceFirstColon]
  | cons c t ih =>
    have hc : (c == ':') = false := by
      rw [beq_eq_false_iff_ne]
      intro he
      exact h (he ▸ List.mem_cons_self c t)
    simp only [List.cons_append, replaceFirstColon, hc, if_neg, Bool.false_eq_true,
      not_false_eq_true, List.cons.injEq, true_and]
    exact ih fun hm => h (List.mem_cons_of_mem c hm)

theorem leadingDigits_all (l : List Char) (h : ∀ c ∈ l, isDigitChar c = true) :
    leadingDigits l = l := by
  induction l with
  | nil => rfl
  | cons c t ih =>
    rw [leadingDigits, if_pos (h c (List.mem_cons_self c t))]
    exact congrArg (c :: ·) (ih fun x hx => h x (List.mem_cons_of_mem c hx))

theorem hourOK_digits (a : List Char) (h : hourOK a = true) :
    a ≠ [] ∧ ∀ c ∈ a, isDigitChar c = true := by
  match a with
  | [] => simp [hourOK] at h
  | [d] =>
    refine ⟨by simp, ?_⟩
    intro c hc
    rw [List.mem_singleton] at hc
    subst hc
    simpa [hourOK] using h
  | [x, y] =>
    refine ⟨by simp, ?_⟩
    simp only [hourOK, Bool.or_eq_true, Bool.and_eq_true, beq_iff_eq] at h
    intro c hc
    simp only [List.mem_cons, List.mem_singleton, List.not_mem_nil, or_false] at hc
    rcases hc with rfl | rfl
    · rcases h with ⟨hx, _⟩ | ⟨hx, _⟩
      · rcases hx with rfl | rfl <;> decide
      · rw [hx]; decide
    · rcases h with ⟨_, hy⟩ | ⟨_, hy⟩
      · exact hy
      · rcases hy with ((rfl | rfl) | rfl) | rfl <;> decide
  | x :: y :: z :: rest => simp [hourOK] at h

theorem minuteOK_digits (b : List Char) (h : minuteOK b = true) :
    ∀ c ∈ b, isDigitChar c = true := by
  match b with
  | [] => simp [minuteOK] at h
  | [d] => simp [minuteOK] at h
  | [x, y] =>
    simp only [minuteOK, Bool.or_eq_true, Bool.and_eq_true, beq_iff_eq] at h
    obtain ⟨hx, hy⟩ := h
    intro c hc
    simp only [List.mem_cons, List.mem_singleton, List.not_mem_nil, or_false] at hc
    rcases hc with rfl | rfl
    · rcases hx with ((((rfl | rfl) | rfl) | rfl) | rfl) | rfl <;> decide
    · exact hy
  | x :: y :: z :: rest => simp [minuteOK] at h

/-- A string matching the schema's regex has a well-defined encoding: its
`parseInt(s.replace(':', ''))` is not `NaN`. -/
theorem timeNum_of_pattern (s : String) (h : timePattern s = true) :
    timeNum s = some (timeValD s) := by
  unfold timePattern at h
  cases hs : splitAtFirstColon s.data with
  | none => rw [hs] at h; cases h
  | some p =>
    obtain ⟨a, b⟩ := p
    rw [hs] at h
    simp only [Bool.and_eq_true] at h
    obtain ⟨hh, hm⟩ := h
    obtain ⟨hcs, hnc⟩ := splitAtFirstColon_sound s.data a b hs
    obtain ⟨hne, hdig⟩ := hourOK_digits a hh
    have hmdig := minuteOK_digits b hm
    have hall : ∀ c ∈ a ++ b, isDigitChar c = true := by
      intro c hc
      rcases List.mem_append.mp hc with h1 | h2
      · exact hdig c h1
      · exact hmdig c h2
    have habne : a ++ b ≠ [] := by
      intro hab
      exact hne (List.append_eq_nil.mp hab).1
    have hx : timeNum s = some (digitsToNat (a ++ b)) := by
      unfold timeNum parseIntJS
      rw [hcs, replaceFirstColon_split a b hnc, leadingDigits_all _ hall,
        if_neg habne]
    rw [hx]
    unfold timeValD
    rw [hx]
    rfl

/-- For non-empty valid intervals the source's three-disjunct test is exactly
half-open interval overlap. -/
theorem overlapTest_iff (ns ne ss se : Nat) (h1 : ns < ne) (h2 : ss < se) :
    overlapTest (some ns) (some ne) (some ss) (some se) = true ↔
      (ns < se ∧ ss < ne) := by
  simp only [overlapTest, oge, olt, ogt, ole, Bool.or_eq_true, Bool.and_eq_true,
    decide_eq_true_eq]
  omega

theorem bool_eq_of_iff {a b : Bool} (h : a = true ↔ b = true) : a = b := by
  cases a <;> cases b <;> simp_all

/-- What one pool slot contributes to `checkConflicts`: nothing when the ids
agree, otherwise exactly half-open overlap of the encoded intervals. -/
theorem conflictElem_iff (c t : TimeSlot) (hc : validSlot c) (ht : validSlot t) :
    (if t.id == c.id then false
     else overlapTest (timeNum c.start) (timeNum c.«end»)
       (timeNum t.start) (timeNum t.«end»)) = true ↔
      (t.id ≠ c.id ∧ timeValD c.start < timeValD t.«end» ∧
        timeValD t.start < timeValD c.«end») := by
  obtain ⟨hcs, hce, hclt⟩ := hc
  obtain ⟨hts, hte, htlt⟩ := ht
  rw [timeNum_of_pattern _ hcs, timeNum_of_pattern _ hce,
    timeNum_of_pattern _ hts, timeNum_of_pattern _ hte]
  by_cases hid : (t.id == c.id) = true
  · rw [if_pos hid]
    simp [beq_iff_eq.mp hid]
  · rw [if_neg hid]
    rw [overlapTest_iff _ _ _ _ hclt htlt]
    have hne : t.id ≠ c.id := fun e => hid (beq_iff_eq.mpr e)
    exact ⟨fun h => ⟨hne, h⟩, fun h => h.2⟩

/-! ## The claims -/

/-- Claim C1: for a candidate and a pool of slots whose time fields are valid
`HH:MM` strings with `end > start`, `checkConflicts` returns `true` exactly
when some pool slot with a different id overlaps the candidate under half-open
semantics (`s1 < e2` and `s2 < e1` on the encoded values); on the empty pool it
returns `false`, and a pool slot sharing the candidate's id never
contributes. -/
theorem checkConflicts_spec (c : TimeSlot) (pool : List TimeSlot)
    (hc : validSlot c) (hp : ∀ t ∈ pool, validSlot t) :
    (checkConflicts c pool = true ↔
      ∃ t ∈ pool, t.id ≠ c.id ∧
        timeValD c.start < timeValD t.«end» ∧
        timeValD t.start < timeValD c.«end») ∧
    checkConflicts c [] = false := by
  refine ⟨?_, rfl⟩
  unfold checkConflicts
  rw [List.any_eq_true]
  constructor
  · rintro ⟨t, ht, hpt⟩
    exact ⟨t, ht, (conflictElem_iff c t hc (hp t ht)).mp hpt⟩
  · rintro ⟨t, ht, hrest⟩
    exact ⟨t, ht, (conflictElem_iff c t hc (hp t ht)).mpr hrest⟩

/-- Witness for C1 at a concrete candidate and pool. -/
theorem checkConflicts_spec_w :
    ((checkConflicts ⟨"1", "09:00", "12:00", true⟩
        [⟨"2", "11:00", "13:00", true⟩] = true ↔
      ∃ t ∈ [(⟨"2", "11:00", "13:00", true⟩ : TimeSlot)], t.id ≠ "1" ∧
        timeValD "09:00" < timeValD t.«end» ∧
        timeValD t.start < timeValD "12:00") ∧
      checkConflicts ⟨"1", "09:00", "12:00", true⟩ [] = false) :=
  checkConflicts_spec ⟨"1", "09:00", "12:00", true⟩ [⟨"2", "11:00", "13:00", true⟩]
    (by decide)
    (by intro t ht; rw [List.mem_singleton] at ht; subst ht; decide)

/-- Claim C5: on valid slots with distinct ids, the conflict check over a
singleton pool is symmetric. -/
theorem checkConflicts_symm (a b : TimeSlot) (ha : validSlot a) (hb : validSlot b)
    (hne : a.id ≠ b.id) :
    checkConflicts a [b] = checkConflicts b [a] := by
  obtain ⟨has, hae, halt⟩ := ha
  obtain ⟨hbs, hbe, hblt⟩ := hb
  have h1 : ¬((b.id == a.id) = true) := fun e => hne (beq_iff_eq.mp e).symm
  have h2 : ¬((a.id == b.id) = true) := fun e => hne (beq_iff_eq.mp e)
  unfold checkConflicts
  simp only [List.any_cons, List.any_nil, Bool.or_false]
  rw [if_neg h1, if_neg h2]
  rw [timeNum_of_pattern _ has, timeNum_of_pattern _ hae,
    timeNum_of_pattern _ hbs, timeNum_of_pattern _ hbe]
  apply bool_eq_of_iff
  rw [overlapTest_iff _ _ _ _ halt hblt, overlapTest_iff _ _ _ _ hblt halt]
  exact ⟨fun h => ⟨h.2, h.1⟩, fun h => ⟨h.2, h.1⟩⟩

/-- Witness for C5 at two concrete valid slots. -/
theorem checkConflicts_symm_w :
    checkConflicts ⟨"1", "09:00", "12:00", true⟩ [⟨"2", "11:00", "13:00", false⟩] =
      checkConflicts ⟨"2", "11:00", "13:00", false⟩ [⟨"1", "09:00", "12:00", true⟩] :=
  checkConflicts_symm ⟨"1", "09:00", "12:00", true⟩ ⟨"2", "11:00", "13:00", false⟩
    (by decide) (by decide) (by decide)

/-- Claim C6: boundary semantics are half-open — 09:00–12:00 does not conflict
with 12:00–14:00 (touching endpoints), and does conflict with 11:00–13:00,
whatever distinct ids and enabled flags the slots carry. -/
theorem checkConflicts_boundary (i1 i2 : String) (e1 e2 : Bool) (h : i1 ≠ i2) :
    checkConflicts ⟨i1, "09:00", "12:00", e1⟩ [⟨i2, "12:00", "14:00", e2⟩] = false ∧
    checkConflicts ⟨i1, "09:00", "12:00", e1⟩ [⟨i2, "11:00", "13:00", e2⟩] = true := by
  have hid : ¬((i2 == i1) = true) := fun e => h (beq_iff_eq.mp e).symm
  constructor
  · unfold checkConflicts
    simp only [List.any_cons, List.any_nil, Bool.or_false]
    rw [if_neg hid]
    decide
  · unfold checkConflicts
    simp only [List.any_cons, List.any_nil, Bool.or_false]
    rw [if_neg hid]
    decide

/-- Witness for C6 at concrete ids. -/
theorem checkConflicts_boundary_w :
    checkConflicts ⟨"1", "09:00", "12:00", true⟩ [⟨"2", "12:00", "14:00", true⟩] = false ∧
    checkConflicts ⟨"1", "09:00", "12:00", true⟩ [⟨"2", "11:00", "13:00", true⟩] = true :=
  checkConflicts_boundary "1" "2" true true (by decide)

/-- Claim C2: validation succeeds exactly when both fields match the 24-hour
pattern and the encoded end exceeds the encoded start; any pattern failure
yields the format error (e.g. on "25:00" or "9:60"), and well-formed fields
with `end ≤ start` yield the range error. -/
theorem timeSlotSchema_spec (s e : String) :
    (validateTimeSlot s e = Except.ok () ↔
      (timePattern s = true ∧ timePattern e = true ∧ timeValD s < timeValD e)) ∧
    (validateTimeSlot s e = Except.error ValidationError.invalidFormat ↔
      (timePattern s = false ∨ timePattern e = false)) ∧
    (validateTimeSlot s e = Except.error ValidationError.invalidRange ↔
      (timePattern s = true ∧ timePattern e = true ∧ timeValD e ≤ timeValD s)) ∧
    validateTimeSlot "25:00" "26:00" = Except.error ValidationError.invalidFormat ∧
    validateTimeSlot "09:00" "9:60" = Except.error ValidationError.invalidFormat := by
  refine ⟨?_, ?_, ?_, rfl, rfl⟩ <;>
    (cases hs : timePattern s <;> cases he : timePattern e <;>
      simp only [validateTimeSlot, hs, he, Bool.and_self, Bool.and_false,
        Bool.false_and, Bool.and_true, Bool.true_and, if_true, if_false,
        Bool.false_eq_true, Bool.true_eq_false, reduceIte])
  · simp
  · simp
  · simp
  · rw [timeNum_of_pattern s hs, timeNum_of_pattern e he]
    simp only [ogt]
    by_cases hlt : timeValD s < timeValD e
    · rw [if_pos (by simpa using hlt)]
      simp [hlt]
    · rw [if_neg (by simpa using hlt)]
      simp [hlt]
  · simp
  · simp
  · simp
  · rw [timeNum_of_pattern s hs, timeNum_of_pattern e he]
    simp only [ogt]
    by_cases hlt : timeValD s < timeValD e
    · rw [if_pos (by simpa using hlt)]
      simp
    · rw [if_neg (by simpa using hlt)]
      simp
  · simp
  · simp
  · simp
  · rw [timeNum_of_pattern s hs, timeNum_of_pattern e he]
    simp only [ogt]
    by_cases hlt : timeValD s < timeValD e
    · rw [if_pos (by simpa using hlt)]
      simp
      omega
    · rw [if_neg (by simpa using hlt)]
      simp
      omega

/-- Claim C3: selecting a date always resets the slot, from any state; a
following slot selection keeps the date; the concrete scenario of the spec. -/
theorem selection_spec (st : Selection) (d slot : String) :
    handleDateSelect d st = ⟨some d, none⟩ ∧
    handleSlotSelect slot (handleDateSelect d st) = ⟨some d, some slot⟩ ∧
    (handleSlotSelect slot st).selectedDate = st.selectedDate ∧
    handleSlotSelect "09:00-12:00" (handleDateSelect "2025-05-20" st) =
      ⟨some "2025-05-20", some "09:00-12:00"⟩ ∧
    handleDateSelect "2025-05-21"
        (handleSlotSelect "09:00-12:00" (handleDateSelect "2025-05-20" st)) =
      ⟨some "2025-05-21", none⟩ :=
  ⟨rfl, rfl, rfl, rfl, rfl⟩

/-- Claim C7: a day is selectable exactly when some of its slots is available;
all-unavailable and empty days are not selectable, and appending one available
slot makes the day selectable. -/
theorem hasAvailable_spec (day : DaySlots) (d : String) (slots : List BookingSlot)
    (st en : String) :
    (hasAvailable day = true ↔ ∃ s ∈ day.slots, s.available = true) ∧
    ((∀ s ∈ day.slots, s.available = false) → hasAvailable day = false) ∧
    hasAvailable ⟨d, []⟩ = false ∧
    hasAvailable ⟨d, slots ++ [⟨st, en, true⟩]⟩ = true ∧
    hasAvailable ⟨"2025-05-20", [⟨"09:00", "12:00", false⟩]⟩ = false ∧
    hasAvailable ⟨"2025-05-20",
      [⟨"09:00", "12:00", false⟩, ⟨"14:00", "18:00", true⟩]⟩ = true := by
  refine ⟨?_, ?_, rfl, ?_, rfl, rfl⟩
  · unfold hasAvailable
    rw [List.any_eq_true]
  · intro hall
    cases hav : hasAvailable day with
    | false => rfl
    | true =>
      obtain ⟨x, hx, hpx⟩ := List.any_eq_true.mp hav
      rw [hall x hx] at hpx
      cases hpx
  · unfold hasAvailable
    simp [List.any_append]

/-- Claim C4: requests carry the 8000 ms timeout; when the `try` block fails
for any reason, the `'/timeslots'` endpoint toasts the failure and resolves
with the one-day fallback (09:00–12:00 and 14:00–18:00, both available), while
every other endpoint re-throws. -/
theorem fetchAPI_fallback_spec (endpoint : String) (o : FetchOutcome)
    (today : String) (e : FetchErr) (hfail : fetchBody o = Except.error e) :
    (buildRequest endpoint).timeoutMs = 8000 ∧
    fetchAPI "/timeslots" o today =
      (Except.ok (FetchVal.mock
        [⟨today, [⟨"09:00", "12:00", true⟩, ⟨"14:00", "18:00", true⟩]⟩]),
       [errorMessage e]) ∧
    (endpoint ≠ "/timeslots" →
      fetchAPI endpoint o today = (Except.error e, [errorMessage e])) := by
  refine ⟨rfl, ?_, ?_⟩
  · unfold fetchAPI
    rw [hfail]
    rfl
  · intro hne
    simp only [fetchAPI, hfail]
    rw [if_neg (fun hc => hne (beq_iff_eq.mp hc))]

/-- Witness for C4: a timed-out fetch, one availability request and one other
request. -/
theorem fetchAPI_fallback_spec_w :
    (buildRequest "/appointments").timeoutMs = 8000 ∧
    fetchAPI "/timeslots" FetchOutcome.timeout "2025-05-20" =
      (Except.ok (FetchVal.mock
        [⟨"2025-05-20", [⟨"09:00", "12:00", true⟩, ⟨"14:00", "18:00", true⟩]⟩]),
       [errorMessage FetchErr.timeout]) ∧
    ("/appointments" ≠ "/timeslots" →
      fetchAPI "/appointments" FetchOutcome.timeout "2025-05-20" =
        (Except.error FetchErr.timeout, [errorMessage FetchErr.timeout])) :=
  fetchAPI_fallback_spec "/appointments" FetchOutcome.timeout "2025-05-20"
    FetchErr.timeout rfl

/-- Counterexample to claim C8 as stated: a `'/timeslots'` request whose
response carries a non-JSON content type and an HTML body does NOT make
`fetchAPI` reject — the error is caught and the call resolves with the mock
fallback dataset. -/
theorem fetchAPI_contentType_cex :
    ctIncludesJson (some "text/html") = false ∧
    fetchAPI "/timeslots"
        (FetchOutcome.resp ⟨some "text/html", true, 200, "OK",
          "<!DOCTYPE html><html></html>", some ⟨"body"⟩⟩) "2025-05-20" =
      (Except.ok (FetchVal.mock (defaultTimeslots "2025-05-20")),
       [errorMessage FetchErr.htmlPage]) :=
  ⟨rfl, rfl⟩

/-- Claim C8 (amended): for every endpoint other than `'/timeslots'`, a
response whose content type is absent or not JSON makes `fetchAPI` reject with
a descriptive error rather than return the body — the distinguished
`htmlPage` error when the body starts with the HTML document marker, the
generic invalid-content-type error otherwise — while for `'/timeslots'` the
same failure is masked by the fallback dataset instead of rejecting. -/
theorem fetchAPI_contentType_spec (endpoint : String) (r : Response)
    (today : String) (hct : ctIncludesJson r.contentType = false)
    (hep : endpoint ≠ "/timeslots") :
    (strStartsWith r.text "<!DOCTYPE html>" = true →
      fetchAPI endpoint (FetchOutcome.resp r) today =
        (Except.error FetchErr.htmlPage, [errorMessage FetchErr.htmlPage])) ∧
    (strStartsWith r.text "<!DOCTYPE html>" = false →
      fetchAPI endpoint (FetchOutcome.resp r) today =
        (Except.error (FetchErr.invalidContentType r.contentType),
         [errorMessage (FetchErr.invalidContentType r.contentType)])) ∧
    (fetchAPI "/timeslots" (FetchOutcome.resp r) today).1 =
      Except.ok (FetchVal.mock (defaultTimeslots today)) ∧
    FetchErr.htmlPage ≠ FetchErr.invalidContentType r.contentType := by
  have hbody : fetchBody (FetchOutcome.resp r) =
      (if strStartsWith r.text "<!DOCTYPE html>" then
        Except.error FetchErr.htmlPage
       else Except.error (FetchErr.invalidContentType r.contentType)) := by
    simp only [fetchBody, hct, Bool.not_false, if_true]
  have hepb : ¬((endpoint == "/timeslots") = true) :=
    fun hc => hep (beq_iff_eq.mp hc)
  refine ⟨?_, ?_, ?_, fun hcontra => FetchErr.noConfusion hcontra⟩
  · intro hsw
    simp only [fetchAPI, hbody, hsw, if_true]
    rw [if_neg hepb]
  · intro hsw
    simp only [fetchAPI, hbody, hsw, Bool.false_eq_true, if_false]
    rw [if_neg hepb]
  · cases hsw : strStartsWith r.text "<!DOCTYPE html>" with
    | false => simp only [fetchAPI, hbody, hsw, Bool.false_eq_true, if_false]; rfl
    | true => simp only [fetchAPI, hbody, hsw, if_true]; rfl

/-- Witness for C8 (amended) at a concrete non-JSON response on the settings
endpoint. -/
theorem fetchAPI_contentType_spec_w :
    (strStartsWith "oops" "<!DOCTYPE html>" = true →
      fetchAPI "/settings"
          (FetchOutcome.resp ⟨some "text/plain", true, 200, "OK", "oops", none⟩)
          "2025-05-20" =
        (Except.error FetchErr.htmlPage, [errorMessage FetchErr.htmlPage])) ∧
    (strStartsWith "oops" "<!DOCTYPE html>" = false →
      fetchAPI "/settings"
          (FetchOutcome.resp ⟨some "text/plain", true, 200, "OK", "oops", none⟩)
          "2025-05-20" =
        (Except.error (FetchErr.invalidContentType (some "text/plain")),
         [errorMessage (FetchErr.invalidContentType (some "text/plain"))])) ∧
    (fetchAPI "/timeslots"
        (FetchOutcome.resp ⟨some "text/plain", true, 200, "OK", "oops", none⟩)
        "2025-05-20").1 =
      Except.ok (FetchVal.mock (defaultTimeslots "2025-05-20")) ∧
    FetchErr.htmlPage ≠ FetchErr.invalidContentType (some "text/plain") :=
  fetchAPI_contentType_spec "/settings"
    ⟨some "text/plain", true, 200, "OK", "oops", none⟩ "2025-05-20" rfl
    (by decide)

/-- A save handler run never returns `none` once validation passed. -/
theorem handleSave_some_of_valid (tab : Tab) (ed : Bool) (sel : Option TimeSlot)
    (fd : FormData) (newId gid today : String) (reg : List TimeSlot)
    (spec : List SpecialSlot)
    (hv : validateTimeSlot fd.start fd.«end» = Except.ok ()) :
    (handleSave tab ed sel fd newId gid today reg spec).isSome = true := by
  simp only [handleSave, hv]
  cases ed <;> cases sel <;> cases tab <;>
    first
      | rfl
      | (by_cases hsp : spec.length > 0 <;> simp [hsp])

/-- Claim C9: whenever the form passes `timeSlotSchema`, `handleSave` stores
the slot — appended in add mode, edit applied to the slot with the selected id
— and the stored lists are the same whatever `checkConflicts` reports for the
form's candidate against the active pool; the conflict result feeds only the
warning banner. -/
theorem handleSave_ignores_conflicts
    (tab : Tab) (ed : Bool) (sel : Option TimeSlot) (fd : FormData)
    (newId gid today : String) (reg : List TimeSlot) (spec : List SpecialSlot)
    (hv : validateTimeSlot fd.start fd.«end» = Except.ok ()) :
    (∃ res, handleSave tab ed sel fd newId gid today reg spec = some res ∧
      ∀ cfl : Bool,
        checkConflicts (formCandidate fd sel) (slotsToCheckFor tab reg spec) = cfl →
          handleSave tab ed sel fd newId gid today reg spec = some res) ∧
    (ed = false → tab = Tab.regular →
      handleSave tab ed sel fd newId gid today reg spec =
        some (reg ++ [⟨newId, fd.start, fd.«end», fd.enabled⟩], spec)) ∧
    (∀ s, ed = true → sel = some s → tab = Tab.regular →
      handleSave tab ed sel fd newId gid today reg spec =
        some (reg.map (fun sl => if sl.id == s.id then applyForm fd sl else sl),
          spec)) ∧
    (∀ s, ed = true → sel = some s → tab = Tab.special →
      handleSave tab ed sel fd newId gid today reg spec =
        some (reg, spec.map (fun sp =>
          ⟨sp.id, sp.date,
            sp.slots.map fun sl => if sl.id == s.id then applyForm fd sl else sl⟩))) := by
  refine ⟨?_, ?_, ?_, ?_⟩
  · obtain ⟨res, hres⟩ := Option.isSome_iff_exists.mp
      (handleSave_some_of_valid tab ed sel fd newId gid today reg spec hv)
    exact ⟨res, hres, fun _ _ => hres⟩
  · rintro rfl rfl
    cases sel <;> simp only [handleSave, hv]
  · rintro s rfl rfl rfl
    simp only [handleSave, hv]
  · rintro s rfl rfl rfl
    simp only [handleSave, hv]

/-- Witness for C9: adding a valid slot on the regular tab. -/
theorem handleSave_ignores_conflicts_w :
    (∃ res, handleSave Tab.regular false none ⟨"09:00", "12:00", true⟩
        "100" "g" "2025-05-20" [] [] = some res ∧
      ∀ cfl : Bool,
        checkConflicts (formCandidate ⟨"09:00", "12:00", true⟩ none)
            (slotsToCheckFor Tab.regular [] []) = cfl →
          handleSave Tab.regular false none ⟨"09:00", "12:00", true⟩
            "100" "g" "2025-05-20" [] [] = some res) ∧
    (false = false → Tab.regular = Tab.regular →
      handleSave Tab.regular false none ⟨"09:00", "12:00", true⟩
          "100" "g" "2025-05-20" [] [] =
        some ([] ++ [⟨"100", "09:00", "12:00", true⟩], [])) ∧
    (∀ s : TimeSlot, false = true → none = some s → Tab.regular = Tab.regular →
      handleSave Tab.regular false none ⟨"09:00", "12:00", true⟩
          "100" "g" "2025-05-20" [] [] =
        some (List.map
          (fun sl : TimeSlot =>
            if sl.id == s.id then applyForm ⟨"09:00", "12:00", true⟩ sl else sl)
          [], [])) ∧
    (∀ s : TimeSlot, false = true → none = some s → Tab.regular = Tab.special →
      handleSave Tab.regular false none ⟨"09:00", "12:00", true⟩
          "100" "g" "2025-05-20" [] [] =
        some ([], List.map (fun sp : SpecialSlot =>
          (⟨sp.id, sp.date,
            sp.slots.map fun sl =>
              if sl.id == s.id then applyForm ⟨"09:00", "12:00", true⟩ sl else sl⟩ :
            SpecialSlot)) [])) :=
  handleSave_ignores_conflicts Tab.regular false none ⟨"09:00", "12:00", true⟩
    "100" "g" "2025-05-20" [] [] rfl

/-- Appending never touches groups at positive indices. -/
theorem mapWithIndex_pos_fixed (ns : TimeSlot) (l : List SpecialSlot) :
    ∀ n : Nat,
      mapWithIndex
        (fun i sp => if i == 0 then ⟨sp.id, sp.date, sp.slots ++ [ns]⟩ else sp)
        (n + 1) l = l := by
  induction l with
  | nil => intro n; rfl
  | cons a t ih =>
    intro n
    rw [mapWithIndex, if_neg (by simp), ih (n + 1)]

/-- Claim C10: in add mode on the special tab, the new slot is always appended
to the first group — whatever its date, leaving every other group untouched —
and only with an empty special list is a fresh group created, dated the
current day. -/
theorem handleSave_special_add
    (ed : Bool) (sel : Option TimeSlot) (fd : FormData) (newId gid today : String)
    (reg : List TimeSlot) (g : SpecialSlot) (rest : List SpecialSlot)
    (hv : validateTimeSlot fd.start fd.«end» = Except.ok ())
    (hadd : ed = false ∨ sel = none) :
    handleSave Tab.special ed sel fd newId gid today reg (g :: rest) =
      some (reg,
        ⟨g.id, g.date, g.slots ++ [⟨newId, fd.start, fd.«end», fd.enabled⟩]⟩ :: rest) ∧
    handleSave Tab.special ed sel fd newId gid today reg [] =
      some (reg, [⟨gid, today, [⟨newId, fd.start, fd.«end», fd.enabled⟩]⟩]) := by
  have hlen : (g :: rest).length > 0 := by simp
  rcases hadd with rfl | rfl
  · cases sel <;>
      exact ⟨by
          simp only [handleSave, hv]
          rw [if_pos hlen, mapWithIndex,
            if_pos (show ((0 : Nat) == 0) = true from rfl),
            mapWithIndex_pos_fixed _ rest 0],
        by simp only [handleSave, hv]; rfl⟩
  · cases ed <;>
      exact ⟨by
          simp only [handleSave, hv]
          rw [if_pos hlen, mapWithIndex,
            if_pos (show ((0 : Nat) == 0) = true from rfl),
            mapWithIndex_pos_fixed _ rest 0],
        by simp only [handleSave, hv]; rfl⟩

/-- Witness for C10: adding a valid slot with one existing special group and
with none. -/
theorem handleSave_special_add_w :
    handleSave Tab.special false none ⟨"16:00", "17:00", true⟩ "100" "200"
        "2025-05-20" []
        [⟨"1", "2025-05-01", [⟨"1-1", "10:00", "15:00", true⟩]⟩] =
      some ([],
        [⟨"1", "2025-05-01",
          [⟨"1-1", "10:00", "15:00", true⟩, ⟨"100", "16:00", "17:00", true⟩]⟩]) ∧
    handleSave Tab.special false none ⟨"16:00", "17:00", true⟩ "100" "200"
        "2025-05-20" [] [] =
      some ([], [⟨"200", "2025-05-20", [⟨"100", "16:00", "17:00", true⟩]⟩]) :=
  handleSave_special_add false none ⟨"16:00", "17:00", true⟩ "100" "200"
    "2025-05-20" [] ⟨"1", "2025-05-01", [⟨"1-1", "10:00", "15:00", true⟩]⟩ []
    rfl (Or.inl rfl)

end BBT
